import Mathlib

/-
Verification of the binary min-heap in src/source/binaryheap.py (class
BinaryMinHeap), as a shallow embedding.

Elements are modelled as integers.  Each Python method that mutates self
and returns a value (or raises) is modelled as a function from the heap
state to a pair of the post-call heap state and an Except value: ok with
the returned value, or error with the raised error kind.  The Python
ValueError raised on an empty heap is the EmptyContainer error of the
spec; Python IndexError is the IndexOutOfRange error of the spec.

Note on the source: the bodies of _bubble_up and _bubble_down end in
TODO comments; they validate the index and read values but never swap,
so both are no-ops on the items list for in-range indices.  The
embedding reproduces this faithfully (the dead local reads are kept as
unused let bindings).
-/

inductive HeapError where
  | emptyContainer
  | indexOutOfRange
deriving DecidableEq, Repr

deriving instance DecidableEq for Except

structure BinaryMinHeap where
  items : List Int
deriving DecidableEq, Repr

namespace BinaryMinHeap

/-- The heap produced by the zero-argument constructor: an empty items list. -/
def empty : BinaryMinHeap := ⟨[]⟩

/-- Python: size(self) = len(self.items). -/
def size (h : BinaryMinHeap) : Nat := h.items.length

/-- Python: is_empty(self) = (len(self.items) == 0). -/
def isEmpty (h : BinaryMinHeap) : Bool := size h == 0

/-- Python: _last_index(self) = len(self.items) - 1 (a Python int, so -1 when empty). -/
def lastIndex (h : BinaryMinHeap) : Int := (size h : Int) - 1

/-- Python: _parent_index(self, index): raises IndexError when index <= 0,
otherwise returns (index - 1) >> 1.  For index >= 1 the shift equals
division by 2, all integer-division conventions agreeing on nonnegative
dividends. -/
def parentIndexE (index : Int) : Except HeapError Int :=
  if index ≤ 0 then Except.error HeapError.indexOutOfRange
  else Except.ok ((index - 1) / 2)

/-- Python: _left_child_index(self, index) = (index << 1) + 1. -/
def leftChildIndex (index : Int) : Int := 2 * index + 1

/-- Python: _right_child_index(self, index) = (index << 1) + 2. -/
def rightChildIndex (index : Int) : Int := 2 * index + 2

/-- Python: _bubble_up(self, index).  Returns early at the root, validates
0 <= index <= last_index, resolves the parent index and reads the two
values; the swap and recursion are TODO in the source, so no mutation
occurs. -/
def bubbleUp (h : BinaryMinHeap) (index : Int) :
    BinaryMinHeap × Except HeapError Unit :=
  if index = 0 then (h, Except.ok ())
  else if ¬ (0 ≤ index ∧ index ≤ lastIndex h) then
    (h, Except.error HeapError.indexOutOfRange)
  else
    match parentIndexE index with
    | Except.error e => (h, Except.error e)
    | Except.ok parentIndex =>
        let _item := h.items.getD index.toNat 0
        let _parentItem := h.items.getD parentIndex.toNat 0
        (h, Except.ok ())

/-- Python: _bubble_down(self, index).  Validates 0 <= index <= last_index,
computes the child indices, returns at a leaf, and reads items[index] and
items[0] (the source sets child_index = 0 as a TODO placeholder); the swap
and recursion are TODO in the source, so no mutation occurs. -/
def bubbleDown (h : BinaryMinHeap) (index : Int) :
    BinaryMinHeap × Except HeapError Unit :=
  if ¬ (0 ≤ index ∧ index ≤ lastIndex h) then
    (h, Except.error HeapError.indexOutOfRange)
  else if leftChildIndex index > lastIndex h then (h, Except.ok ())
  else
    let _rightIndex := rightChildIndex index
    let _item := h.items.getD index.toNat 0
    let childIndex : Int := 0
    let _childItem := h.items.getD childIndex.toNat 0
    (h, Except.ok ())

/-- Python: insert(self, item): appends item, then bubbles up from the last
index when the size exceeds 1. -/
def insert (h : BinaryMinHeap) (item : Int) :
    BinaryMinHeap × Except HeapError Unit :=
  let h1 : BinaryMinHeap := ⟨h.items ++ [item]⟩
  if size h1 > 1 then bubbleUp h1 (lastIndex h1) else (h1, Except.ok ())

/-- Python: get_min(self): raises on an empty heap, otherwise returns
items[0] without mutating. -/
def getMin (h : BinaryMinHeap) : BinaryMinHeap × Except HeapError Int :=
  if size h = 0 then (h, Except.error HeapError.emptyContainer)
  else (h, Except.ok (h.items.getD 0 0))

/-- Python: delete_min(self): raises on an empty heap; pops the sole item
when size is 1; otherwise saves items[0], pops the last item into the root
slot, bubbles down from 0 when more than one item remains, and returns the
saved value. -/
def deleteMin (h : BinaryMinHeap) : BinaryMinHeap × Except HeapError Int :=
  if size h = 0 then (h, Except.error HeapError.emptyContainer)
  else if size h = 1 then (⟨[]⟩, Except.ok (h.items.getLastD 0))
  else
    let minItem := h.items.getD 0 0
    let lastItem := h.items.getLastD 0
    let h1 : BinaryMinHeap := ⟨h.items.dropLast.set 0 lastItem⟩
    if size h1 > 1 then
      match bubbleDown h1 0 with
      | (h2, Except.error e) => (h2, Except.error e)
      | (h2, Except.ok _) => (h2, Except.ok minItem)
    else (h1, Except.ok minItem)

/-- Python: replace_min(self, item): raises on an empty heap; saves
items[0], overwrites the root slot with item, bubbles down from 0 when
the size exceeds 1, and returns the saved value. -/
def replaceMin (h : BinaryMinHeap) (item : Int) :
    BinaryMinHeap × Except HeapError Int :=
  if size h = 0 then (h, Except.error HeapError.emptyContainer)
  else
    let minItem := h.items.getD 0 0
    let h1 : BinaryMinHeap := ⟨h.items.set 0 item⟩
    if size h1 > 1 then
      match bubbleDown h1 0 with
      | (h2, Except.error e) => (h2, Except.error e)
      | (h2, Except.ok _) => (h2, Except.ok minItem)
    else (h1, Except.ok minItem)

/-- One public mutating call, for describing reachable heap states. -/
inductive Op where
  | insert (x : Int)
  | deleteMin
  | replaceMin (x : Int)

/-- The heap state after one public call (the state a raising call leaves
behind is the first component of the pair, i.e. whatever the method had
mutated before raising). -/
def applyOp (h : BinaryMinHeap) : Op → BinaryMinHeap
  | Op.insert x => (insert h x).1
  | Op.deleteMin => (deleteMin h).1
  | Op.replaceMin x => (replaceMin h x).1

/-- The heap reached from the empty heap by a sequence of public calls. -/
def runOps (ops : List Op) : BinaryMinHeap := ops.foldl applyOp empty

/-- Values returned by repeated delete_min calls, fuel-bounded. -/
def drainFuel : Nat → BinaryMinHeap → List Int
  | 0, _ => []
  | n + 1, h =>
    match deleteMin h with
    | (_, Except.error _) => []
    | (h2, Except.ok x) => x :: drainFuel n h2

/-- Values returned by calling delete_min until the heap is empty. -/
def drain (h : BinaryMinHeap) : List Int := drainFuel (size h) h

/-- The heap after n delete_min calls. -/
def delMany : Nat → BinaryMinHeap → BinaryMinHeap
  | 0, h => h
  | n + 1, h => delMany n (deleteMin h).1

/-- Starting from h, insert each element in turn and record get_min after
each insertion (the running-minimum probe of the concrete scenario). -/
def runningMins (h : BinaryMinHeap) : List Int → List (Except HeapError Int)
  | [] => []
  | x :: xs =>
    let h1 := (insert h x).1
    (getMin h1).2 :: runningMins h1 xs

/-- Parent position in the implicit tree: (i - 1) / 2 with integer division. -/
def parentIdx (i : Nat) : Nat := (i - 1) / 2

/-- Whether a list is in non-decreasing order (each element at most the
next), executably. -/
def nondecreasingB : List Int → Bool
  | [] => true
  | [_] => true
  | x :: y :: rest => decide (x ≤ y) && nondecreasingB (y :: rest)

/-- The heap-order invariant of the spec: every populated non-root position
is at least its parent. -/
def heapProperty (l : List Int) : Prop :=
  ∀ i, i < l.length → 0 < i → l.getD (parentIdx i) 0 ≤ l.getD i 0

instance heapPropertyDecidable (l : List Int) : Decidable (heapProperty l) :=
  inferInstanceAs
    (Decidable (∀ i, i < l.length → 0 < i →
      l.getD (parentIdx i) 0 ≤ l.getD i 0))

theorem bubbleUp_fst (h : BinaryMinHeap) (i : Int) : (bubbleUp h i).1 = h := by
  unfold bubbleUp
  split
  · rfl
  · split
    · rfl
    · cases parentIndexE i <;> rfl

theorem bubbleDown_fst (h : BinaryMinHeap) (i : Int) :
    (bubbleDown h i).1 = h := by
  unfold bubbleDown
  split
  · rfl
  · split
    · rfl
    · rfl

theorem bubbleUp_ok (h : BinaryMinHeap) (i : Int) (hlo : 0 ≤ i)
    (hhi : i ≤ lastIndex h) : bubbleUp h i = (h, Except.ok ()) := by
  unfold bubbleUp
  split
  · rfl
  · rename_i hne
    rw [if_neg (not_not_intro ⟨hlo, hhi⟩)]
    have hpos : ¬ i ≤ 0 := by omega
    unfold parentIndexE
    rw [if_neg hpos]

theorem bubbleDown_ok (h : BinaryMinHeap) (i : Int) (hlo : 0 ≤ i)
    (hhi : i ≤ lastIndex h) : bubbleDown h i = (h, Except.ok ()) := by
  unfold bubbleDown
  rw [if_neg (not_not_intro ⟨hlo, hhi⟩)]
  split
  · rfl
  · rfl

theorem insert_eq (h : BinaryMinHeap) (x : Int) :
    insert h x = (⟨h.items ++ [x]⟩, Except.ok ()) := by
  unfold insert
  simp only [size]
  split
  · rename_i hgt
    simp only [List.length_append, List.length_singleton] at hgt
    refine bubbleUp_ok _ _ ?_ le_rfl
    unfold lastIndex size
    simp only [List.length_append, List.length_singleton]
    omega
  · rfl

theorem getMin_pos (h : BinaryMinHeap) (hs : 1 ≤ size h) :
    getMin h = (h, Except.ok (h.items.getD 0 0)) := by
  unfold getMin
  rw [if_neg (by omega)]

theorem deleteMin_big (h : BinaryMinHeap) (hs : 2 ≤ size h) :
    deleteMin h =
      (⟨h.items.dropLast.set 0 (h.items.getLastD 0)⟩,
        Except.ok (h.items.getD 0 0)) := by
  have hlen : 2 ≤ h.items.length := hs
  have hbd :
      bubbleDown ⟨h.items.dropLast.set 0 (h.items.getLastD 0)⟩ 0 =
        (⟨h.items.dropLast.set 0 (h.items.getLastD 0)⟩, Except.ok ()) := by
    refine bubbleDown_ok _ _ le_rfl ?_
    unfold lastIndex size
    simp only [List.length_set, List.length_dropLast]
    omega
  unfold deleteMin
  rw [if_neg (by omega : ¬ size h = 0), if_neg (by omega : ¬ size h = 1)]
  simp only [hbd]
  split <;> rfl

theorem replaceMin_pos (h : BinaryMinHeap) (x : Int) (hs : 1 ≤ size h) :
    replaceMin h x = (⟨h.items.set 0 x⟩, Except.ok (h.items.getD 0 0)) := by
  have hlen : 1 ≤ h.items.length := hs
  have hbd :
      bubbleDown ⟨h.items.set 0 x⟩ 0 =
        (⟨h.items.set 0 x⟩, Except.ok ()) := by
    refine bubbleDown_ok _ _ le_rfl ?_
    unfold lastIndex size
    simp only [List.length_set]
    omega
  unfold replaceMin
  rw [if_neg (by omega : ¬ size h = 0)]
  simp only [hbd]
  split <;> rfl

theorem foldl_insert_items (xs : List Int) :
    ∀ h : BinaryMinHeap,
      ((xs.map Op.insert).foldl applyOp h).items = h.items ++ xs := by
  induction xs with
  | nil => intro h; simp
  | cons x xs ih =>
      intro h
      simp only [List.map_cons, List.foldl_cons, applyOp]
      rw [insert_eq, ih]
      simp

/-- C1: the source claims the heap property holds for every heap reachable
by public operations, but bubble_up performs no swap (its body is a TODO),
so inserting 2 and then 1 leaves items = [2, 1], where the parent of
position 1 holds 2 > 1: the reachable state violates the heap property. -/
theorem C1_heap_property_violated :
    (runOps [Op.insert 2, Op.insert 1]).items = [2, 1] ∧
    ¬ heapProperty (runOps [Op.insert 2, Op.insert 1]).items := by decide

/-- C2: on the reachable heap built by inserting 2 and then 1, get_min
returns 2 even though 1 is among the held elements, so get_min does not
return the minimum (bubble_up never moves the smaller item to the root). -/
theorem C2_getmin_not_min :
    (getMin (runOps [Op.insert 2, Op.insert 1])).2 = Except.ok 2 ∧
    (1 : Int) ∈ (runOps [Op.insert 2, Op.insert 1]).items ∧
    ¬ ((2 : Int) ≤ 1) := by decide

/-- C3: after inserting 2 and then 1, draining the heap by repeated
delete_min returns [2, 1], which is not in non-decreasing order (though it
is the inserted multiset), refuting the sorted-extraction claim on the
code. -/
theorem C3_extraction_unsorted :
    drain (runOps [Op.insert 2, Op.insert 1]) = [2, 1] ∧
    nondecreasingB (drain (runOps [Op.insert 2, Op.insert 1])) = false := by
  decide

/-- C4: on the concrete scenario of the spec, the code returns get_min = 9
after every one of the seven insertions (not the running minima ending in
3), and the seven delete_min calls return [9, 55, 5, 29, 3, 86, 25] (not
the sorted order), although the heap is indeed empty afterward. -/
theorem C4_concrete_scenario_divergence :
    runningMins empty [9, 25, 86, 3, 29, 5, 55] =
      [Except.ok 9, Except.ok 9, Except.ok 9, Except.ok 9, Except.ok 9,
        Except.ok 9, Except.ok 9] ∧
    drain (runOps ([9, 25, 86, 3, 29, 5, 55].map Op.insert)) =
      [9, 55, 5, 29, 3, 86, 25] ∧
    size (delMany 7 (runOps ([9, 25, 86, 3, 29, 5, 55].map Op.insert))) = 0 ∧
    isEmpty (delMany 7 (runOps ([9, 25, 86, 3, 29, 5, 55].map Op.insert)))
      = true := by decide

/-- C5: on the reachable heap with items [1, 2], replace_min 5 does return
the value delete_min would return (1) and keeps the size, but afterwards
get_min returns 5 while 2 is still held, so get_min is not at most the
minimum of the remaining elements together with 5, refuting the claim on
the code. -/
theorem C5_replace_min_divergence :
    (replaceMin (runOps [Op.insert 1, Op.insert 2]) 5).2 = Except.ok 1 ∧
    (deleteMin (runOps [Op.insert 1, Op.insert 2])).2 = Except.ok 1 ∧
    size (replaceMin (runOps [Op.insert 1, Op.insert 2]) 5).1 =
      size (runOps [Op.insert 1, Op.insert 2]) ∧
    (getMin ((replaceMin (runOps [Op.insert 1, Op.insert 2]) 5).1)).2 =
      Except.ok 5 ∧
    (2 : Int) ∈ ((replaceMin (runOps [Op.insert 1, Op.insert 2]) 5).1).items ∧
    ¬ ((5 : Int) ≤ 2) := by decide

/-- C6: size accounting: every insert call increases the size by exactly 1,
every successful delete_min call decreases it by exactly 1, and every
successful replace_min call leaves it unchanged. -/
theorem C6_size_accounting (h : BinaryMinHeap) (x : Int) :
    size (insert h x).1 = size h + 1 ∧
    (∀ v : Int, (deleteMin h).2 = Except.ok v →
      size (deleteMin h).1 + 1 = size h) ∧
    (∀ v : Int, (replaceMin h x).2 = Except.ok v →
      size (replaceMin h x).1 = size h) := by
  refine ⟨?_, ?_, ?_⟩
  · rw [insert_eq]
    unfold size
    simp
  · intro v hv
    by_cases h0 : size h = 0
    · unfold deleteMin at hv
      rw [if_pos h0] at hv
      simp at hv
    · by_cases h1 : size h = 1
      · unfold deleteMin
        rw [if_neg h0, if_pos h1]
        unfold size at h1 ⊢
        simp [h1]
      · have hge : 2 ≤ size h := by omega
        have hlen : 2 ≤ h.items.length := hge
        rw [deleteMin_big h hge]
        unfold size
        simp only [List.length_set, List.length_dropLast]
        omega
  · intro v hv
    by_cases h0 : size h = 0
    · unfold replaceMin at hv
      rw [if_pos h0] at hv
      simp at hv
    · rw [replaceMin_pos h x (by omega)]
      unfold size
      simp

/-- C6 witness: on the heap with items [1, 2] and item 5, the size moves
2, 1, 2 across insert, delete_min, replace_min as the accounting law
states. -/
theorem C6_size_accounting_witness :
    size (insert ⟨[1, 2]⟩ 5).1 = size (⟨[1, 2]⟩ : BinaryMinHeap) + 1 ∧
    size (deleteMin (⟨[1, 2]⟩ : BinaryMinHeap)).1 + 1 =
      size (⟨[1, 2]⟩ : BinaryMinHeap) ∧
    size (replaceMin ⟨[1, 2]⟩ 5).1 = size (⟨[1, 2]⟩ : BinaryMinHeap) := by
  have h := C6_size_accounting ⟨[1, 2]⟩ 5
  exact ⟨h.1, h.2.1 1 (by decide), h.2.2 1 (by decide)⟩

/-- C7: get_min, delete_min and replace_min each raise the EmptyContainer
error exactly when the size is 0, and whenever one of them raises any
error the heap state is left unchanged. -/
theorem C7_empty_errors (h : BinaryMinHeap) (x : Int) :
    ((getMin h).2 = Except.error HeapError.emptyContainer ↔ size h = 0) ∧
    ((deleteMin h).2 = Except.error HeapError.emptyContainer ↔ size h = 0) ∧
    ((replaceMin h x).2 = Except.error HeapError.emptyContainer ↔
      size h = 0) ∧
    (∀ e, (getMin h).2 = Except.error e → (getMin h).1 = h) ∧
    (∀ e, (deleteMin h).2 = Except.error e → (deleteMin h).1 = h) ∧
    (∀ e, (replaceMin h x).2 = Except.error e → (replaceMin h x).1 = h) := by
  by_cases h0 : size h = 0
  · have hg : getMin h = (h, Except.error HeapError.emptyContainer) := by
      unfold getMin; rw [if_pos h0]
    have hd : deleteMin h = (h, Except.error HeapError.emptyContainer) := by
      unfold deleteMin; rw [if_pos h0]
    have hr : replaceMin h x = (h, Except.error HeapError.emptyContainer) := by
      unfold replaceMin; rw [if_pos h0]
    rw [hg, hd, hr]
    exact ⟨by simp [h0], by simp [h0], by simp [h0],
      fun e _ => rfl, fun e _ => rfl, fun e _ => rfl⟩
  · have hs : 1 ≤ size h := by omega
    have hg := getMin_pos h hs
    have hr := replaceMin_pos h x hs
    have hd : (deleteMin h).2 = Except.ok (h.items.getD 0 0) := by
      by_cases h1 : size h = 1
      · unfold deleteMin
        rw [if_neg h0, if_pos h1]
        unfold size at h1
        match h.items, h1 with
        | [a], _ => rfl
      · rw [deleteMin_big h (by omega)]
    refine ⟨?_, ?_, ?_, ?_, ?_, ?_⟩
    · rw [hg]; simp [h0]
    · rw [hd]; simp [h0]
    · rw [hr]; simp [h0]
    · intro e he; rw [hg] at he; simp at he
    · intro e he; rw [hd] at he; simp at he
    · intro e he; rw [hr] at he; simp at he

/-- C7 witness: on the empty heap each operation reports the
EmptyContainer error and leaves the heap unchanged. -/
theorem C7_empty_errors_witness :
    (getMin empty).2 = Except.error HeapError.emptyContainer ∧
    (deleteMin empty).2 = Except.error HeapError.emptyContainer ∧
    (deleteMin empty).1 = empty := by
  have h := C7_empty_errors empty 0
  exact ⟨h.1.mpr (by decide), h.2.1.mpr (by decide),
    h.2.2.2.2.1 HeapError.emptyContainer (h.2.1.mpr (by decide))⟩

/-- C8: on a heap holding exactly one inserted element x, get_min returns
x, and delete_min returns x and leaves the heap empty. -/
theorem C8_single_element (x : Int) :
    (getMin (insert empty x).1).2 = Except.ok x ∧
    (deleteMin (insert empty x).1).2 = Except.ok x ∧
    size (deleteMin (insert empty x).1).1 = 0 := by
  have h1 : (insert empty x).1 = ⟨[x]⟩ := by rw [insert_eq]; rfl
  rw [h1]
  refine ⟨rfl, rfl, rfl⟩

/-- C9 counterexample: index 0 is outside the populated range of the empty
heap (whose last index is -1), yet bubble_up returns successfully instead
of raising IndexOutOfRange, because its root-node early return precedes
its bounds check. -/
theorem C9_counterexample_bubble_up_zero :
    ¬ (0 ≤ (0 : Int) ∧ (0 : Int) ≤ lastIndex empty) ∧
    (bubbleUp empty 0).2 = Except.ok () := by decide

/-- C9 amended: bubble_down raises IndexOutOfRange for every index outside
0..last_index (including index 0 on an empty heap); bubble_up raises
IndexOutOfRange for every out-of-range index other than 0, while at index
0 it always returns successfully without raising; and parent-index
resolution raises IndexOutOfRange for every index at most 0. -/
theorem C9_index_errors (h : BinaryMinHeap) (i : Int) :
    (¬ (0 ≤ i ∧ i ≤ lastIndex h) →
      (bubbleDown h i).2 = Except.error HeapError.indexOutOfRange) ∧
    (¬ (0 ≤ i ∧ i ≤ lastIndex h) → i ≠ 0 →
      (bubbleUp h i).2 = Except.error HeapError.indexOutOfRange) ∧
    (bubbleUp h 0).2 = Except.ok () ∧
    (i ≤ 0 → parentIndexE i = Except.error HeapError.indexOutOfRange) := by
  refine ⟨?_, ?_, ?_, ?_⟩
  · intro hout
    unfold bubbleDown
    rw [if_pos hout]
  · intro hout hne
    unfold bubbleUp
    rw [if_neg hne, if_pos hout]
  · rfl
  · intro hle
    unfold parentIndexE
    rw [if_pos hle]

/-- C9 witness: on the empty heap at index -1 both sift routines raise
IndexOutOfRange, bubble_up at index 0 returns successfully, and
parent-index resolution at -1 raises IndexOutOfRange. -/
theorem C9_index_errors_witness :
    (bubbleDown empty (-1)).2 = Except.error HeapError.indexOutOfRange ∧
    (bubbleUp empty (-1)).2 = Except.error HeapError.indexOutOfRange ∧
    (bubbleUp empty 0).2 = Except.ok () ∧
    parentIndexE (-1) = Except.error HeapError.indexOutOfRange := by
  have h := C9_index_errors empty (-1)
  exact ⟨h.1 (by decide), h.2.1 (by decide) (by decide), h.2.2.1,
    h.2.2.2 (by decide)⟩

/-- C10: for every in-range index the sift routines leave the items list
unchanged (the swap bodies are TODO in the source) and report success,
and consequently any sequence of inserts from the empty heap leaves items
equal to the insertion sequence in insertion order. -/
theorem C10_sift_frame (h : BinaryMinHeap) (i : Int) (xs : List Int)
    (hlo : 0 ≤ i) (hhi : i ≤ lastIndex h) :
    (bubbleUp h i).1 = h ∧ (bubbleUp h i).2 = Except.ok () ∧
    (bubbleDown h i).1 = h ∧ (bubbleDown h i).2 = Except.ok () ∧
    (runOps (xs.map Op.insert)).items = xs := by
  rw [bubbleUp_ok h i hlo hhi, bubbleDown_ok h i hlo hhi]
  refine ⟨rfl, rfl, rfl, rfl, ?_⟩
  unfold runOps
  rw [foldl_insert_items]
  rfl

/-- C10 witness: on the heap with items [5, 7] at index 1, both sift
routines return the heap unchanged, and inserting 3 then 4 into the empty
heap leaves items = [3, 4]. -/
theorem C10_sift_frame_witness :
    (bubbleUp ⟨[5, 7]⟩ 1).1 = (⟨[5, 7]⟩ : BinaryMinHeap) ∧
    (bubbleUp ⟨[5, 7]⟩ 1).2 = Except.ok () ∧
    (bubbleDown ⟨[5, 7]⟩ 1).1 = (⟨[5, 7]⟩ : BinaryMinHeap) ∧
    (bubbleDown ⟨[5, 7]⟩ 1).2 = Except.ok () ∧
    (runOps ([3, 4].map Op.insert)).items = [3, 4] :=
  C10_sift_frame ⟨[5, 7]⟩ 1 [3, 4] (by decide) (by decide)

end BinaryMinHeap
